import Mathlib

/-!
Shallow embedding of `aospy/automate.py` (and the object-library contract it
consumes) for checking the natural-language specification of the repository.

Python values are modelled as follows:
* attribute-bearing domain objects (the "object library", projects, models,
  runs, regions, variables, sub-namespace modules) become `Node`: a runtime
  type tag (for `isinstance` checks against `Region` / `Var`), a name, and an
  attribute dictionary whose values are either a single object or a list of
  objects (`Node ⊕ List Node`), mirroring `obj.__dict__`;
* heterogeneous dictionary values flowing through `CalcSuite` become `Val`
  (object / string / bool / set-of-objects / list);
* Python dicts become association lists with unique keys, in insertion order;
* raisable code returns `Except PyErr _`, where `PyErr` names the Python
  exception classes actually raised, together with their position in Python's
  builtin exception hierarchy (`KeyError`/`IndexError` subclass `LookupError`;
  `AttributeError` and `TypeError` subclass `Exception` directly, and so does
  the package's own `AospyException`).
-/

inductive PyType where
  | region
  | var
  | other
deriving DecidableEq

/-- A Python exception class raised somewhere in `automate.py`.  The
`isLookupError` predicate below records which of these classes are subclasses
of Python's builtin `LookupError`. -/
inductive PyErr where
  | keyError
  | indexError
  | attributeError
  | typeError
  | aospyException
deriving DecidableEq

/-- Python's builtin exception hierarchy: `KeyError` and `IndexError` are the
subclasses of `LookupError`; `AttributeError` and `TypeError` derive directly
from `Exception`, as does `aospy`'s own `AospyException`. -/
def PyErr.isLookupError : PyErr → Bool
  | .keyError => true
  | .indexError => true
  | .attributeError => false
  | .typeError => false
  | .aospyException => false

/-- An attribute-bearing Python object: a runtime type (for `isinstance`), a
name, and its `__dict__` as an association list whose values are either a
single object (`Sum.inl`) or a list of objects (`Sum.inr`). -/
inductive Node where
  | mk (ty : PyType) (name : String) (attrs : List (String × (Node ⊕ List Node))) : Node

def Node.ty : Node → PyType
  | .mk t _ _ => t

def Node.name : Node → String
  | .mk _ n _ => n

def Node.attrs : Node → List (String × (Node ⊕ List Node))
  | .mk _ _ a => a

mutual

def nodeBeq : Node → Node → Bool
  | .mk t1 n1 as1 =>
    fun b =>
      match b with
      | .mk t2 n2 as2 => t1 == t2 && n1 == n2 && attrsBeq as1 as2

def attrsBeq : List (String × (Node ⊕ List Node)) → List (String × (Node ⊕ List Node)) → Bool
  | [] => fun b => b.isEmpty
  | (k1, v1) :: r1 =>
    fun b =>
      match b with
      | [] => false
      | (k2, v2) :: r2 => k1 == k2 && attrvBeq v1 v2 && attrsBeq r1 r2

def attrvBeq : (Node ⊕ List Node) → (Node ⊕ List Node) → Bool
  | .inl a =>
    fun b =>
      match b with
      | .inl b2 => nodeBeq a b2
      | .inr _ => false
  | .inr a =>
    fun b =>
      match b with
      | .inl _ => false
      | .inr b2 => nodesBeq a b2

def nodesBeq : List Node → List Node → Bool
  | [] => fun b => b.isEmpty
  | a :: as1 =>
    fun b =>
      match b with
      | [] => false
      | b2 :: bs => nodeBeq a b2 && nodesBeq as1 bs

end

mutual

def nodeBeqSound : (a : Node) → ∀ b, nodeBeq a b = true → a = b
  | .mk t1 n1 as1 =>
    fun b =>
      match b with
      | .mk t2 n2 as2 => fun h =>
        have h1 := (Bool.and_eq_true _ _).mp h
        have h2 := (Bool.and_eq_true _ _).mp h1.1
        have ht : t1 = t2 := by
          have := h2.1
          simpa using this
        have hn : n1 = n2 := by
          have := h2.2
          simpa using this
        have has : as1 = as2 := attrsBeqSound as1 as2 h1.2
        by rw [ht, hn, has]

def attrsBeqSound : (a b : List (String × (Node ⊕ List Node))) → attrsBeq a b = true → a = b
  | [] => fun b =>
    match b with
    | [] => fun _ => rfl
    | _ :: _ => fun h => by simp [attrsBeq, List.isEmpty] at h
  | (k1, v1) :: r1 => fun b =>
    match b with
    | [] => fun h => by simp [attrsBeq] at h
    | (k2, v2) :: r2 => fun h =>
      have h1 := (Bool.and_eq_true _ _).mp h
      have h2 := (Bool.and_eq_true _ _).mp h1.1
      have hk : k1 = k2 := by
        have := h2.1
        simpa using this
      have hv : v1 = v2 := attrvBeqSound v1 v2 h2.2
      have hr : r1 = r2 := attrsBeqSound r1 r2 h1.2
      by rw [hk, hv, hr]

def attrvBeqSound : (a b : Node ⊕ List Node) → attrvBeq a b = true → a = b
  | .inl a => fun b =>
    match b with
    | .inl b2 => fun h => by rw [nodeBeqSound a b2 h]
    | .inr _ => fun h => by simp [attrvBeq] at h
  | .inr a => fun b =>
    match b with
    | .inl _ => fun h => by simp [attrvBeq] at h
    | .inr b2 => fun h => by rw [nodesBeqSound a b2 h]

def nodesBeqSound : (a b : List Node) → nodesBeq a b = true → a = b
  | [] => fun b =>
    match b with
    | [] => fun _ => rfl
    | _ :: _ => fun h => by simp [nodesBeq, List.isEmpty] at h
  | a :: as1 => fun b =>
    match b with
    | [] => fun h => by simp [nodesBeq] at h
    | b2 :: bs => fun h =>
      have h1 := (Bool.and_eq_true _ _).mp h
      have hn : a = b2 := nodeBeqSound a b2 h1.1
      have hs : as1 = bs := nodesBeqSound as1 bs h1.2
      by rw [hn, hs]

end

mutual

def nodeBeqRefl : (a : Node) → nodeBeq a a = true
  | .mk t n attrs =>
    have ha := attrsBeqRefl attrs
    by simp [nodeBeq, ha]

def attrsBeqRefl : (a : List (String × (Node ⊕ List Node))) → attrsBeq a a = true
  | [] => rfl
  | (k, v) :: r =>
    have hv := attrvBeqRefl v
    have hr := attrsBeqRefl r
    by simp [attrsBeq, hv, hr]

def attrvBeqRefl : (a : Node ⊕ List Node) → attrvBeq a a = true
  | .inl n => nodeBeqRefl n
  | .inr l => nodesBeqRefl l

def nodesBeqRefl : (a : List Node) → nodesBeq a a = true
  | [] => rfl
  | n :: rest =>
    have hn := nodeBeqRefl n
    have hr := nodesBeqRefl rest
    by simp [nodesBeq, hn, hr]

end

instance : DecidableEq Node := fun a b =>
  if h : nodeBeq a b = true then isTrue (nodeBeqSound a b h)
  else isFalse fun he => h (he ▸ nodeBeqRefl a)

/-- A heterogeneous Python value as it appears in the dictionaries handled by
`CalcSuite`: a domain object, a string, a bool, a set of domain objects, or a
list of values.  A Python set is modelled as a duplicate-free list of its
members in some iteration order; set construction (`pySet`) deduplicates, and
set equality is membership equality, not list equality. -/
inductive Val where
  | node : Node → Val
  | str : String → Val
  | bool : Bool → Val
  | nodeSet : List Node → Val
  | list : List Val → Val

/-- Python's `set(iterable)` on domain objects: duplicates collapse; the
iteration order of the resulting set is left as the first-occurrence order. -/
def pySet (l : List Node) : List Node := l.dedup

mutual

def valBeq : Val → Val → Bool
  | .node a =>
    fun b =>
      match b with
      | .node b2 => a == b2
      | _ => false
  | .str a =>
    fun b =>
      match b with
      | .str b2 => a == b2
      | _ => false
  | .bool a =>
    fun b =>
      match b with
      | .bool b2 => a == b2
      | _ => false
  | .nodeSet a =>
    fun b =>
      match b with
      | .nodeSet b2 => a == b2
      | _ => false
  | .list a =>
    fun b =>
      match b with
      | .list b2 => valsBeq a b2
      | _ => false

def valsBeq : List Val → List Val → Bool
  | [] => fun b => b.isEmpty
  | a :: as1 =>
    fun b =>
      match b with
      | [] => false
      | b2 :: bs => valBeq a b2 && valsBeq as1 bs

end

mutual

def valBeqSound : (a b : Val) → valBeq a b = true → a = b
  | .node a => fun b =>
    match b with
    | .node b2 => fun h => by
      have : a = b2 := by simpa [valBeq] using h
      rw [this]
    | .str _ => fun h => by simp [valBeq] at h
    | .bool _ => fun h => by simp [valBeq] at h
    | .nodeSet _ => fun h => by simp [valBeq] at h
    | .list _ => fun h => by simp [valBeq] at h
  | .str a => fun b =>
    match b with
    | .str b2 => fun h => by
      have : a = b2 := by simpa [valBeq] using h
      rw [this]
    | .node _ => fun h => by simp [valBeq] at h
    | .bool _ => fun h => by simp [valBeq] at h
    | .nodeSet _ => fun h => by simp [valBeq] at h
    | .list _ => fun h => by simp [valBeq] at h
  | .bool a => fun b =>
    match b with
    | .bool b2 => fun h => by
      have : a = b2 := by simpa [valBeq] using h
      rw [this]
    | .node _ => fun h => by simp [valBeq] at h
    | .str _ => fun h => by simp [valBeq] at h
    | .nodeSet _ => fun h => by simp [valBeq] at h
    | .list _ => fun h => by simp [valBeq] at h
  | .nodeSet a => fun b =>
    match b with
    | .nodeSet b2 => fun h => by
      have : a = b2 := by simpa [valBeq] using h
      rw [this]
    | .node _ => fun h => by simp [valBeq] at h
    | .str _ => fun h => by simp [valBeq] at h
    | .bool _ => fun h => by simp [valBeq] at h
    | .list _ => fun h => by simp [valBeq] at h
  | .list a => fun b =>
    match b with
    | .list b2 => fun h =>
      have : a = b2 := valsBeqSound a b2 (by simpa [valBeq] using h)
      by rw [this]
    | .node _ => fun h => by simp [valBeq] at h
    | .str _ => fun h => by simp [valBeq] at h
    | .bool _ => fun h => by simp [valBeq] at h
    | .nodeSet _ => fun h => by simp [valBeq] at h

def valsBeqSound : (a b : List Val) → valsBeq a b = true → a = b
  | [] => fun b =>
    match b with
    | [] => fun _ => rfl
    | _ :: _ => fun h => by simp [valsBeq, List.isEmpty] at h
  | a :: as1 => fun b =>
    match b with
    | [] => fun h => by simp [valsBeq] at h
    | b2 :: bs => fun h =>
      have h1 := (Bool.and_eq_true _ _).mp h
      have hv : a = b2 := valBeqSound a b2 h1.1
      have hs : as1 = bs := valsBeqSound as1 bs h1.2
      by rw [hv, hs]

end

mutual

def valBeqRefl : (a : Val) → valBeq a a = true
  | .node a => by simp [valBeq]
  | .str a => by simp [valBeq]
  | .bool a => by simp [valBeq]
  | .nodeSet a => by simp [valBeq]
  | .list a =>
    have h := valsBeqRefl a
    by simp [valBeq, h]

def valsBeqRefl : (a : List Val) → valsBeq a a = true
  | [] => rfl
  | a :: as1 =>
    have hv := valBeqRefl a
    have hs := valsBeqRefl as1
    by simp [valsBeq, hv, hs]

end

instance : DecidableEq Val := fun a b =>
  if h : valBeq a b = true then isTrue (valBeqSound a b h)
  else isFalse fun he => h (he ▸ valBeqRefl a)

instance {ε α : Type} [DecidableEq ε] [DecidableEq α] : DecidableEq (Except ε α) :=
  fun a b =>
    match a, b with
    | .ok a, .ok b =>
      match decEq a b with
      | isFalse h => isFalse (by intro he; injection he; contradiction)
      | isTrue h => isTrue (by rw [h])
    | .error a, .error b =>
      match decEq a b with
      | isFalse h => isFalse (by intro he; injection he; contradiction)
      | isTrue h => isTrue (by rw [h])
    | .ok _, .error _ => isFalse (by intro he; injection he)
    | .error _, .ok _ => isFalse (by intro he; injection he)

/-!
Python dictionary / attribute-lookup primitives, as used by `automate.py`.
-/

/-- Lookup in a Python dict (or in an object's `__dict__`), modelled on
association lists: the first binding of the key wins. -/
def dictLookup {β : Type} (k : String) : List (String × β) → Option β
  | [] => none
  | kv :: rest => if kv.1 = k then some kv.2 else dictLookup k rest

/-- Python's `d[k]` on a dict: raises `KeyError` when the key is absent.  Used
for `_TAG_ATTR_MODIFIERS[tag]` in `_get_attr_by_tag`. -/
def dictGetItem {β : Type} (k : String) (d : List (String × β)) : Except PyErr β :=
  match dictLookup k d with
  | some v => Except.ok v
  | none => Except.error PyErr.keyError

/-- Python's `d.pop(k, dflt)`: returns the removed value (or the default) and
the dict after the in-place removal. -/
def dictPop (k : String) (d : List (String × Val)) (dflt : Val) :
    Val × List (String × Val) :=
  match dictLookup k d with
  | some v => (v, d.filter (fun kv => kv.1 ≠ k))
  | none => (dflt, d)

/-- Python's `d1.update(d2)` result (`_merge_dicts` inner step): keys of `d1`
keep their position but take `d2`'s value when present; keys only in `d2` are
appended in order. -/
def dictUpdate (d1 d2 : List (String × Val)) : List (String × Val) :=
  (d1.map fun kv =>
    match dictLookup kv.1 d2 with
    | some v => (kv.1, v)
    | none => kv)
  ++ d2.filter (fun kv => (dictLookup kv.1 d1).isNone)

/-- Translation of `_merge_dicts(*dict_args)`: start from `{}` and `update`
with each argument in turn; precedence goes to later dicts. -/
def mergeDicts (ds : List (List (String × Val))) : List (String × Val) :=
  ds.foldl dictUpdate []

/-- Python's `getattr(obj, name)` on a domain object, raising
`AttributeError` when the attribute is absent. -/
def getattrExc (obj : Node) (name : String) : Except PyErr (Node ⊕ List Node) :=
  match dictLookup name obj.attrs with
  | some v => Except.ok v
  | none => Except.error PyErr.attributeError

/-- Python's three-argument `getattr(obj, name, dflt)`. -/
def getattrOr (obj : Node) (name : String) (dflt : Node ⊕ List Node) :
    Node ⊕ List Node :=
  match dictLookup name obj.attrs with
  | some v => v
  | none => dflt

/-- Iterating a Python value (as `itertools.product` and `for` loops do):
lists iterate their elements, sets iterate their elements in unspecified
order, strings iterate their characters; objects and bools are not iterable
and raise `TypeError`. -/
def pyIter : Val → Except PyErr (List Val)
  | .list l => Except.ok l
  | .nodeSet s => Except.ok (s.map Val.node)
  | .str s => Except.ok (s.data.map fun c => Val.str (String.mk [c]))
  | .node _ => Except.error PyErr.typeError
  | .bool _ => Except.error PyErr.typeError

/-- Python truthiness of a `Val`, for `if exec_options.pop('prompt_verify',
False):` and the `parallelize` flag. -/
def Val.truthy : Val → Bool
  | .bool b => b
  | .str s => s ≠ ""
  | .list l => !l.isEmpty
  | .nodeSet s => !s.isEmpty
  | .node _ => true

/-- Monadic fold over `Except`, written out so that proofs can proceed by
plain structural induction.  It models a Python loop that may raise. -/
def exceptFoldlM {α β : Type} (f : β → α → Except PyErr β) : β → List α → Except PyErr β
  | b, [] => Except.ok b
  | b, x :: xs =>
    match f b x with
    | Except.error e => Except.error e
    | Except.ok b2 => exceptFoldlM f b2 xs

/-- Monadic map over `Except`, modelling a loop that evaluates one fallible
expression per element and aborts on the first exception. -/
def exceptMapM {α β : Type} (f : α → Except PyErr β) : List α → Except PyErr (List β)
  | [] => Except.ok []
  | x :: xs =>
    match f x with
    | Except.error e => Except.error e
    | Except.ok y =>
      match exceptMapM f xs with
      | Except.error e => Except.error e
      | Except.ok ys => Except.ok (y :: ys)

/-!
Translation of the specification-resolution engine of `automate.py`.
-/

/-- The module-level `_TAG_ATTR_MODIFIERS = dict(all='', default='default_')`. -/
def tagAttrModifiers : List (String × String) := [("all", ""), ("default", "default_")]

/-- Translation of `_get_attr_by_tag(obj, tag, attr_name)`:
`attr_name = _TAG_ATTR_MODIFIERS[tag] + attr_name` (raising `KeyError` for an
unknown tag) followed by `getattr(obj, attr_name)` (raising `AttributeError`
when the modified attribute is absent). -/
def getAttrByTag (obj : Node) (tag : String) (attrName : String) :
    Except PyErr (Node ⊕ List Node) :=
  match dictGetItem tag tagAttrModifiers with
  | Except.error e => Except.error e
  | Except.ok pre => getattrExc obj (pre ++ attrName)

/-- A user-supplied value for one of the core fields (`projects`, `models`,
`runs`): either a string sentinel tag (the `isinstance(requested, str)`
branch) or an explicit collection of domain objects. -/
inductive SpecIn where
  | tag : String → SpecIn
  | objs : List Node → SpecIn

/-- Translation of `CalcSuite._get_requested_spec(obj, spec_name)`: a string
value is resolved through `_get_attr_by_tag` against `obj`; anything else is
returned verbatim. -/
def getRequestedSpec (requested : SpecIn) (obj : Node) (specName : String) :
    Except PyErr (Node ⊕ List Node) :=
  match requested with
  | .tag t => getAttrByTag obj t specName
  | .objs l => Except.ok (Sum.inr l)

/-- Iterating the value returned by `_get_requested_spec` in a `for` loop: a
collection iterates its members; a single (non-iterable) domain object raises
`TypeError`. -/
def asIterable : Node ⊕ List Node → Except PyErr (List Node)
  | .inl _ => Except.error PyErr.typeError
  | .inr l => Except.ok l

/-- A user-supplied value for `regions` or `variables`: the literal sentinel
string `"all"`, or an explicit collection of domain objects. -/
inductive CollIn where
  | all : CollIn
  | explicit : List Node → CollIn

/-- The set comprehension in `_get_all_objs_of_type(type_, parent)` once
`parent.__dict__` is in hand: keep the attribute values that are single
objects of the requested runtime type (a list-valued attribute is never an
instance of `Region`/`Var`). -/
def allObjsOfType (t : PyType) (parent : Node) : List Node :=
  pySet ((parent.attrs.map Prod.snd).filterMap fun v =>
    match v with
    | Sum.inl n => if n.ty = t then some n else none
    | Sum.inr _ => none)

/-- Translation of `_get_all_objs_of_type(type_, parent)`.  Accessing
`parent.__dict__` on a non-object (e.g. a list) raises `AttributeError`. -/
def getAllObjsOfType (t : PyType) : Node ⊕ List Node → Except PyErr (List Node)
  | .inl n => Except.ok (allObjsOfType t n)
  | .inr _ => Except.error PyErr.attributeError

/-- The full specification mapping handed to `CalcSuite.__init__`
(`calc_suite_specs`), one field per key the suite recognises. -/
structure SuiteSpecs where
  library : Node
  projects : SpecIn
  models : SpecIn
  runs : SpecIn
  variables_ : CollIn
  regions : CollIn
  date_ranges : Val
  input_time_intervals : Val
  input_time_datatypes : Val
  input_time_offsets : Val
  input_vertical_datatypes : Val
  output_time_intervals : Val
  output_time_regional_reductions : Val
  output_vertical_reductions : Val

namespace CalcSuite

/-- Translation of `CalcSuite._permute_core_specs`: nested traversal of
projects, each project's models, and each model's runs, appending one
`{proj: ..., model: ..., run: ...}` dict per (project, model, run) path. -/
def permuteCoreSpecs (s : SuiteSpecs) : Except PyErr (List (List (String × Val))) :=
  match getRequestedSpec s.projects s.library "projects" with
  | Except.error e => Except.error e
  | Except.ok projectsV =>
    match asIterable projectsV with
    | Except.error e => Except.error e
    | Except.ok projects =>
      exceptFoldlM
        (fun trees project =>
          match getRequestedSpec s.models project "models" with
          | Except.error e => Except.error e
          | Except.ok modelsV =>
            match asIterable modelsV with
            | Except.error e => Except.error e
            | Except.ok models =>
              exceptFoldlM
                (fun trees2 model =>
                  match getRequestedSpec s.runs model "runs" with
                  | Except.error e => Except.error e
                  | Except.ok runsV =>
                    match asIterable runsV with
                    | Except.error e => Except.error e
                    | Except.ok runs =>
                      Except.ok (trees2 ++ runs.map fun run =>
                        [("proj", Val.node project),
                         ("model", Val.node model),
                         ("run", Val.node run)]))
                trees models)
        [] projects

/-- Translation of `CalcSuite._get_regions`: for the sentinel `"all"`, the
set of `Region`-typed attributes of `getattr(obj_lib, 'regions', obj_lib)`;
otherwise `set(requested)`.  Either way the set is returned wrapped in a
one-element list. -/
def getRegions (s : SuiteSpecs) : Except PyErr Val :=
  match s.regions with
  | .all =>
    match getAllObjsOfType PyType.region (getattrOr s.library "regions" (Sum.inl s.library)) with
    | Except.error e => Except.error e
    | Except.ok objs => Except.ok (Val.list [Val.nodeSet objs])
  | .explicit l => Except.ok (Val.list [Val.nodeSet (pySet l)])

/-- Translation of `CalcSuite._get_variables`: for the sentinel `"all"`, the
set of `Var`-typed attributes of `getattr(obj_lib, 'variables', obj_lib)`;
otherwise `set(requested)`.  Unlike regions, the set itself is the resolved
value (not wrapped in a list). -/
def getVariables (s : SuiteSpecs) : Except PyErr Val :=
  match s.variables_ with
  | .all =>
    match getAllObjsOfType PyType.var (getattrOr s.library "variables" (Sum.inl s.library)) with
    | Except.error e => Except.error e
    | Except.ok objs => Except.ok (Val.nodeSet objs)
  | .explicit l => Except.ok (Val.nodeSet (pySet l))

/-- Translation of `CalcSuite._get_date_ranges`: the literal string sentinel
`'default'` becomes the one-element list `['default']`; any other value is
returned unchanged. -/
def getDateRanges (s : SuiteSpecs) : Val :=
  if s.date_ranges = Val.str "default" then Val.list [Val.str "default"]
  else s.date_ranges

/-- Translation of `CalcSuite._get_time_reg_reducts`: the raw
`output_time_regional_reductions` value is always wrapped as a one-element
list, so it is treated as a single combined value. -/
def getTimeRegReducts (s : SuiteSpecs) : Val :=
  Val.list [s.output_time_regional_reductions]

/-- Translation of `CalcSuite._get_aux_specs`: drop the core fields and
re-resolve `regions`, `variables`, `date_ranges`, and
`output_time_regional_reductions` in place, keeping every other auxiliary
field verbatim.  The association list is in the declared field order. -/
def getAuxSpecs (s : SuiteSpecs) : Except PyErr (List (String × Val)) :=
  match getRegions s with
  | Except.error e => Except.error e
  | Except.ok regionsV =>
    match getVariables s with
    | Except.error e => Except.error e
    | Except.ok variablesV =>
      Except.ok
        [("variables", variablesV),
         ("regions", regionsV),
         ("date_ranges", getDateRanges s),
         ("input_time_intervals", s.input_time_intervals),
         ("input_time_datatypes", s.input_time_datatypes),
         ("input_time_offsets", s.input_time_offsets),
         ("input_vertical_datatypes", s.input_vertical_datatypes),
         ("output_time_intervals", s.output_time_intervals),
         ("output_time_regional_reductions", getTimeRegReducts s),
         ("output_vertical_reductions", s.output_vertical_reductions)]

end CalcSuite

/-- Translation of `itertools.product(*value_lists)`: the rightmost factor
varies fastest, exactly as a sequence of nested `for` loops. -/
def listProd {α : Type} : List (List α) → List (List α)
  | [] => [[]]
  | xs :: rest => (xs.map fun x => (listProd rest).map fun p => x :: p).flatten

/-- Translation of `_permuted_dicts_of_specs(specs)`: iterate each value of
the spec dict (raising `TypeError` if one is not iterable), form the
Cartesian product of the iterations, and zip each permutation back with the
spec keys into a dict. -/
def permutedDictsOfSpecs (specs : List (String × Val)) :
    Except PyErr (List (List (String × Val))) :=
  match exceptMapM (fun kv => pyIter kv.2) specs with
  | Except.error e => Except.error e
  | Except.ok valueLists =>
    Except.ok ((listProd valueLists).map fun perm => (specs.map Prod.fst).zip perm)

/-- The auxiliary-field rows of `CalcSuite._NAMES_SUITE_TO_CALC`, in the
dict's insertion order, after the core fields (and the manually added
`library` entry) have been popped in `_permute_aux_specs`. -/
def namesSuiteToCalcAux : List (String × String) :=
  [("variables", "var"),
   ("regions", "region"),
   ("date_ranges", "date_range"),
   ("input_time_intervals", "intvl_in"),
   ("input_time_datatypes", "dtype_in_time"),
   ("input_time_offsets", "time_offset"),
   ("input_vertical_datatypes", "dtype_in_vert"),
   ("output_time_intervals", "intvl_out"),
   ("output_time_regional_reductions", "dtype_out_time"),
   ("output_vertical_reductions", "dtype_out_vert")]

/-- The renaming loop of `_permute_aux_specs`:
`specs[calc_name] = specs.pop(suite_name)` for each mapping row in order.  A
`pop` of an absent key raises `KeyError`; on a hit the key is removed from
its position and the renamed key is appended at the end, as in a Python
dict. -/
def renameAuxSpecs (specs : List (String × Val)) : Except PyErr (List (String × Val)) :=
  exceptFoldlM
    (fun acc p =>
      match dictLookup p.1 acc with
      | some v => Except.ok ((acc.filter fun kv => kv.1 ≠ p.1) ++ [(p.2, v)])
      | none => Except.error PyErr.keyError)
    specs namesSuiteToCalcAux

namespace CalcSuite

/-- Translation of `CalcSuite._permute_aux_specs`: resolve the auxiliary
fields, rename them to the names `Calc` expects, and permute. -/
def permuteAuxSpecs (s : SuiteSpecs) : Except PyErr (List (List (String × Val))) :=
  match getAuxSpecs s with
  | Except.error e => Except.error e
  | Except.ok specs =>
    match renameAuxSpecs specs with
    | Except.error e => Except.error e
    | Except.ok renamed => permutedDictsOfSpecs renamed

/-- Translation of `CalcSuite._combine_core_aux_specs`: for each core dict
(outer loop) and each auxiliary dict (inner loop, recomputed per outer
iteration) append `_merge_dicts(core_dict, aux_dict)`.  Note that when there
are no core dicts the auxiliary permutation is never evaluated, exactly as in
the Python generator loop. -/
def combineCoreAuxSpecs (s : SuiteSpecs) : Except PyErr (List (List (String × Val))) :=
  match permuteCoreSpecs s with
  | Except.error e => Except.error e
  | Except.ok core =>
    exceptFoldlM
      (fun allSpecs coreDict =>
        match permuteAuxSpecs s with
        | Except.error e => Except.error e
        | Except.ok auxDicts =>
          Except.ok (allSpecs ++ auxDicts.map fun auxDict =>
            mergeDicts [coreDict, auxDict]))
      [] core

end CalcSuite

/-!
Translation of the execution harness of `automate.py`.
-/

/-- A constructed computation unit (`aospy.Calc`), opaque to the harness: a
string identity (what `str(calc)` interpolates into the log message) and a
`compute` operation that either returns a result or raises; the error payload
is the traceback text that `traceback.format_exc()` would render. -/
structure Calc (α : Type) where
  id : String
  compute : Except String α

/-- The log message built by `_compute_or_skip_on_error` when a unit raises:
`msg.format(calc, traceback.format_exc())`. -/
def skipMsg {α : Type} (u : Calc α) (tb : String) : String :=
  "Skipping aospy calculation `" ++ u.id ++
    "` due to error with the following traceback: \n" ++ tb

/-- Translation of `_compute_or_skip_on_error(calc, compute_kwargs)`: run the
unit; on success return its result, on any exception log a warning built from
the unit's identity and the traceback and return `None`.  The total return
type records that the exception is never re-raised. -/
def computeOrSkipOnError {α : Type} (u : Calc α) : Option α × List String :=
  match u.compute with
  | Except.ok r => (some r, [])
  | Except.error tb => (none, [skipMsg u tb])

/-- The sequential branch of `_exec_calcs`: the list comprehension evaluates
`_compute_or_skip_on_error` on each unit in input order, accumulating the
warning log in the same order. -/
def execCalcsSeq {α : Type} : List (Calc α) → List (Option α) × List String
  | [] => ([], [])
  | c :: rest =>
    let r := computeOrSkipOnError c
    let rs := execCalcsSeq rest
    (r.1 :: rs.1, r.2 ++ rs.2)

/-- The parallel branch of `_exec_calcs`: `multiprocess.Pool().map` is an
order-preserving parallel map, so its result list is modelled as the map of
`_compute_or_skip_on_error` over the units in submission order; the warning
log lines are emitted by the workers and collected here in submission order
as one representative interleaving. -/
def poolMap {α : Type} (calcs : List (Calc α)) : List (Option α) × List String :=
  ((calcs.map computeOrSkipOnError).map Prod.fst,
   ((calcs.map computeOrSkipOnError).map Prod.snd).flatten)

/-- Translation of `_exec_calcs(calcs, parallelize, ...)`: dispatch to the
pool when `parallelize` is true, else run sequentially. -/
def execCalcs {α : Type} (calcs : List (Calc α)) (parallelize : Bool) :
    List (Option α) × List String :=
  if parallelize then poolMap calcs else execCalcsSeq calcs

/-!
Translation of the submission frontend of `automate.py`.
-/

/-- Python's `str.lower` (per character, as adequate for prompt answers). -/
def pyLower (s : String) : String := String.mk (s.data.map Char.toLower)

/-- Translation of `_user_verify(input_func, prompt)` applied to the answer
the user typed: `input_func(prompt).lower()[0]` raises `IndexError` on the
empty answer; otherwise `AospyException('Execution cancelled by user.')` is
raised unless the first lowered character is `'y'`. -/
def userVerify (answer : String) : Except PyErr Unit :=
  match (pyLower answer).data[0]? with
  | none => Except.error PyErr.indexError
  | some c => if c = 'y' then Except.ok () else Except.error PyErr.aospyException

/-- Everything observable about one call of `submit_mult_calcs`: the final
state of the caller's (mutated-in-place) `exec_options` dict, the list of
units that were constructed before the call returned or raised, and the
returned result list with its warning log (or the exception raised). -/
structure SubmitOutcome (α : Type) where
  execOptionsFinal : List (String × Val)
  constructedCalcs : List (Calc α)
  outcome : Except PyErr (List (Option α) × List String)

/-- The tail of `submit_mult_calcs` after the optional verification prompt:
build the `CalcSuite`, construct one unit per resolved spec via the external
`Calc(CalcInterface(**sp))` constructor (modelled by `mk`), and hand the
units to `_exec_calcs` with the remaining options, of which `parallelize`
selects the dispatch mode. -/
def submitProceed {α : Type} (mk : List (String × Val) → Calc α) (s : SuiteSpecs)
    (opts : List (String × Val)) : SubmitOutcome α :=
  match CalcSuite.combineCoreAuxSpecs s with
  | Except.error e => ⟨opts, [], Except.error e⟩
  | Except.ok specs =>
    let calcs := specs.map mk
    let par := (match dictLookup "parallelize" opts with
                | some v => v
                | none => Val.bool false).truthy
    ⟨opts, calcs, Except.ok (execCalcs calcs par)⟩

/-- Translation of `submit_mult_calcs(calc_suite_specs, exec_options)`: a
`None` options argument becomes a fresh empty dict; `prompt_verify` is popped
from the dict (an in-place mutation the caller observes); when it is truthy
the summary is printed and `_user_verify` runs against the user's answer,
raising before any unit is constructed if the answer is not affirmative. -/
def submitMultCalcs {α : Type} (mk : List (String × Val) → Calc α) (s : SuiteSpecs)
    (execOptionsIn : Option (List (String × Val))) (answer : String) : SubmitOutcome α :=
  let opts0 := match execOptionsIn with
               | none => []
               | some d => d
  let popped := dictPop "prompt_verify" opts0 (Val.bool false)
  if popped.1.truthy then
    match userVerify answer with
    | Except.error e => ⟨popped.2, [], Except.error e⟩
    | Except.ok _ => submitProceed mk s popped.2
  else submitProceed mk s popped.2

/-!
Concrete fixtures used by witness theorems: a small object library with one
project `A` (models `m1`, `m2`; `m1.runs = [r1]`, `m2.runs = [r2, r3]`), two
region attributes, one variable attribute, and a fully populated
specification mapping over it.
-/

def wR1 : Node := Node.mk PyType.other "r1" []

def wR2 : Node := Node.mk PyType.other "r2" []

def wR3 : Node := Node.mk PyType.other "r3" []

def wM1 : Node := Node.mk PyType.other "m1" [("runs", Sum.inr [wR1])]

def wM2 : Node := Node.mk PyType.other "m2" [("runs", Sum.inr [wR2, wR3])]

def wA : Node := Node.mk PyType.other "A" [("models", Sum.inr [wM1, wM2])]

def wReg1 : Node := Node.mk PyType.region "reg1" []

def wReg2 : Node := Node.mk PyType.region "reg2" []

def wVar1 : Node := Node.mk PyType.var "v1" []

def wLib : Node := Node.mk PyType.other "lib"
  [("projects", Sum.inr [wA]), ("reg1", Sum.inl wReg1), ("reg2", Sum.inl wReg2),
   ("v1", Sum.inl wVar1)]

def wSpecs : SuiteSpecs :=
  { library := wLib
    projects := SpecIn.objs [wA]
    models := SpecIn.tag "all"
    runs := SpecIn.tag "all"
    variables_ := CollIn.all
    regions := CollIn.all
    date_ranges := Val.str "default"
    input_time_intervals := Val.list [Val.str "monthly"]
    input_time_datatypes := Val.list [Val.str "ts"]
    input_time_offsets := Val.list [Val.bool false]
    input_vertical_datatypes := Val.list [Val.bool false]
    output_time_intervals := Val.list [Val.str "ann"]
    output_time_regional_reductions := Val.list [Val.str "av", Val.str "reg.av"]
    output_vertical_reductions := Val.list [Val.bool false] }

/-- A trivial external unit constructor for witnesses. -/
def wMk : List (String × Val) → Calc Nat := fun _ => ⟨"wcalc", Except.ok 0⟩

/-!
Claim C8: date-range resolution.
-/

/-- Claim C8: resolving `date_ranges` when the supplied value is the literal
sentinel `"default"` yields the single-element sequence `["default"]`; for
every other supplied value, resolution returns that value unchanged. -/
theorem get_date_ranges_default_or_passthrough (s : SuiteSpecs) :
    (s.date_ranges = Val.str "default" →
      CalcSuite.getDateRanges s = Val.list [Val.str "default"]) ∧
    (s.date_ranges ≠ Val.str "default" →
      CalcSuite.getDateRanges s = s.date_ranges) := by
  refine ⟨fun h => ?_, fun h => ?_⟩
  · simp [CalcSuite.getDateRanges, h]
  · simp [CalcSuite.getDateRanges, h]

/-- Witness for claim C8, at the fixture (whose `date_ranges` is the sentinel)
and at a modified fixture carrying an explicit list. -/
theorem get_date_ranges_default_or_passthrough_witness :
    CalcSuite.getDateRanges wSpecs = Val.list [Val.str "default"] ∧
    CalcSuite.getDateRanges { wSpecs with date_ranges := Val.list [Val.str "d1"] }
      = Val.list [Val.str "d1"] :=
  ⟨(get_date_ranges_default_or_passthrough wSpecs).1 rfl,
   (get_date_ranges_default_or_passthrough
      { wSpecs with date_ranges := Val.list [Val.str "d1"] }).2 (by decide)⟩

/-!
Claim C9: `output_time_regional_reductions` is a single combined value.
-/

/-- Claim C9: for every supplied value of `output_time_regional_reductions`,
resolution wraps it as a one-element sequence containing the raw input, so
iterating the resolved value for the auxiliary Cartesian product yields
exactly one element, regardless of how many reductions the input holds. -/
theorem get_time_reg_reducts_single_axis_value (s : SuiteSpecs) :
    CalcSuite.getTimeRegReducts s = Val.list [s.output_time_regional_reductions] ∧
    pyIter (CalcSuite.getTimeRegReducts s)
      = Except.ok [s.output_time_regional_reductions] ∧
    ([s.output_time_regional_reductions] : List Val).length = 1 :=
  ⟨rfl, rfl, rfl⟩

/-!
Claim C2: error classes of sentinel-tag resolution (corrected).
-/

/-- Claim C2 counterexample: the claim says a missing `default_`-prefixed
attribute fails with a LookupError-class condition; on the code, looking up
`default_models` on an object without that attribute raises
`AttributeError`, which is not a subclass of `LookupError` in Python's
exception hierarchy. -/
theorem get_attr_by_tag_missing_attr_not_lookup_error :
    getAttrByTag (Node.mk PyType.other "proj1" []) "default" "models"
        = Except.error PyErr.attributeError ∧
      PyErr.attributeError.isLookupError = false :=
  ⟨rfl, rfl⟩

/-- Claim C2 (amended): resolving an unknown sentinel tag fails with a
`KeyError` (a LookupError-class condition); looking up a missing
`default_`-prefixed attribute fails with an `AttributeError` (not a
LookupError-class condition); in either case the resolution step returns an
exception and core expansion propagates it, returning no partial result
list. -/
theorem get_attr_by_tag_error_classes :
    (∀ obj tag attrName, dictLookup tag tagAttrModifiers = none →
        getAttrByTag obj tag attrName = Except.error PyErr.keyError ∧
        PyErr.keyError.isLookupError = true) ∧
    (∀ obj attrName, dictLookup ("default_" ++ attrName) obj.attrs = none →
        getAttrByTag obj "default" attrName = Except.error PyErr.attributeError ∧
        PyErr.attributeError.isLookupError = false) ∧
    (∀ s e, getRequestedSpec s.projects s.library "projects" = Except.error e →
        CalcSuite.permuteCoreSpecs s = Except.error e) := by
  refine ⟨fun obj tag attrName h => ⟨?_, rfl⟩, fun obj attrName h => ⟨?_, rfl⟩,
    fun s e h => ?_⟩
  · simp [getAttrByTag, dictGetItem, h]
  · simp [getAttrByTag, dictGetItem, tagAttrModifiers, dictLookup, getattrExc, h]
  · simp [CalcSuite.permuteCoreSpecs, h]

/-- Witness for claim C2 (amended): an unknown tag `"bogus"` raises
`KeyError`, and a `"default"` tag against a project with no `default_models`
attribute raises `AttributeError`; with such a projects spec the whole core
permutation errors out. -/
theorem get_attr_by_tag_error_classes_witness :
    (getAttrByTag wA "bogus" "models" = Except.error PyErr.keyError ∧
      PyErr.keyError.isLookupError = true) ∧
    (getAttrByTag wA "default" "models" = Except.error PyErr.attributeError ∧
      PyErr.attributeError.isLookupError = false) ∧
    CalcSuite.permuteCoreSpecs { wSpecs with projects := SpecIn.tag "bogus" }
      = Except.error PyErr.keyError :=
  ⟨get_attr_by_tag_error_classes.1 wA "bogus" "models" (by decide),
   get_attr_by_tag_error_classes.2.1 wA "models" (by decide),
   get_attr_by_tag_error_classes.2.2 { wSpecs with projects := SpecIn.tag "bogus" }
     PyErr.keyError (by decide)⟩

/-!
Claim C3: core expansion follows the hierarchy.
-/

/-- The core parameter dict appended by `_permute_core_specs` for one
(project, model, run) path. -/
def coreDict (p m r : Node) : List (String × Val) :=
  [("proj", Val.node p), ("model", Val.node m), ("run", Val.node r)]

/-- Claim C3: with `projects = [A]`, `models = "all"`, `runs = "all"` over a
hierarchy where `A.models = [m1, m2]`, `m1.runs = [r1]`, `m2.runs = [r2, r3]`,
core expansion yields exactly the triples `(A,m1,r1), (A,m2,r2), (A,m2,r3)`,
one per (project, model, run) path, and never a cross-combined triple such as
`(A,m1,r2)`. -/
theorem permute_core_specs_hierarchy (s : SuiteSpecs) (A m1 m2 r1 r2 r3 : Node)
    (hproj : s.projects = SpecIn.objs [A])
    (hmods : s.models = SpecIn.tag "all")
    (hruns : s.runs = SpecIn.tag "all")
    (hA : dictLookup "models" A.attrs = some (Sum.inr [m1, m2]))
    (hm1 : dictLookup "runs" m1.attrs = some (Sum.inr [r1]))
    (hm2 : dictLookup "runs" m2.attrs = some (Sum.inr [r2, r3]))
    (hmm : m1 ≠ m2) (hrr : r1 ≠ r2) :
    CalcSuite.permuteCoreSpecs s =
      Except.ok [coreDict A m1 r1, coreDict A m2 r2, coreDict A m2 r3] ∧
    coreDict A m1 r2 ∉ [coreDict A m1 r1, coreDict A m2 r2, coreDict A m2 r3] := by
  have hall : ∀ (obj : Node) (name : String),
      getAttrByTag obj "all" name = getattrExc obj name := by
    intro obj name
    have h1 : dictGetItem "all" tagAttrModifiers = Except.ok "" := rfl
    simp [getAttrByTag, h1, String.empty_append]
  constructor
  · simp [CalcSuite.permuteCoreSpecs, hproj, hmods, hruns, getRequestedSpec, hall,
      getattrExc, hA, hm1, hm2, asIterable, exceptFoldlM, coreDict]
  · intro hmem
    simp only [coreDict, List.mem_cons, List.not_mem_nil, or_false,
      List.cons.injEq, Prod.mk.injEq, Val.node.injEq, and_true, true_and,
      eq_self_iff_true] at hmem
    rcases hmem with h | h | h
    · exact hrr h.symm
    · exact hmm h
    · exact hmm h.1

/-- Witness for claim C3 at the concrete fixture library. -/
theorem permute_core_specs_hierarchy_witness :
    CalcSuite.permuteCoreSpecs wSpecs =
      Except.ok [coreDict wA wM1 wR1, coreDict wA wM2 wR2, coreDict wA wM2 wR3] ∧
    coreDict wA wM1 wR2 ∉
      [coreDict wA wM1 wR1, coreDict wA wM2 wR2, coreDict wA wM2 wR3] :=
  permute_core_specs_hierarchy wSpecs wA wM1 wM2 wR1 wR2 wR3 rfl rfl rfl
    (by decide) (by decide) (by decide) (by decide) (by decide)

/-!
Claim C6: region resolution.
-/

/-- Claim C6: resolving `regions = "all"` yields (as the single value of the
regions axis) exactly the set of `Region`-typed attributes of the library's
`regions` sub-namespace when that attribute is present, and of the library
object itself otherwise; an explicit list resolves to exactly its member set,
duplicates collapsed and order-irrelevant (set semantics). -/
theorem get_regions_resolution :
    (∀ s ns, s.regions = CollIn.all →
        dictLookup "regions" s.library.attrs = some (Sum.inl ns) →
        CalcSuite.getRegions s =
          Except.ok (Val.list [Val.nodeSet (allObjsOfType PyType.region ns)])) ∧
    (∀ s, s.regions = CollIn.all →
        dictLookup "regions" s.library.attrs = none →
        CalcSuite.getRegions s =
          Except.ok (Val.list [Val.nodeSet (allObjsOfType PyType.region s.library)])) ∧
    (∀ t parent n, n ∈ allObjsOfType t parent ↔
        n.ty = t ∧ ∃ k, (k, Sum.inl n) ∈ parent.attrs) ∧
    (∀ s l, s.regions = CollIn.explicit l →
        CalcSuite.getRegions s = Except.ok (Val.list [Val.nodeSet (pySet l)])) ∧
    (∀ l : List Node, (pySet l).Nodup ∧ ∀ x, x ∈ pySet l ↔ x ∈ l) ∧
    (∀ l1 l2 : List Node, (∀ x, x ∈ l1 ↔ x ∈ l2) →
        ∀ x, x ∈ pySet l1 ↔ x ∈ pySet l2) := by
  refine ⟨fun s ns hall hns => ?_, fun s hall hnone => ?_, fun t parent n => ?_,
    fun s l hex => ?_, fun l => ⟨List.nodup_dedup l, fun x => List.mem_dedup⟩,
    fun l1 l2 hsame x => ?_⟩
  · simp [CalcSuite.getRegions, hall, getattrOr, hns, getAllObjsOfType]
  · simp [CalcSuite.getRegions, hall, getattrOr, hnone, getAllObjsOfType]
  · constructor
    · intro hn
      rw [allObjsOfType, pySet, List.mem_dedup, List.mem_filterMap] at hn
      rcases hn with ⟨v, hv, heq⟩
      rcases v with n2 | l2
      · by_cases hty : n2.ty = t
        · simp [hty] at heq
          subst heq
          refine ⟨hty, ?_⟩
          rcases List.mem_map.mp hv with ⟨⟨k, v⟩, hkv, hsnd⟩
          have hv2 : v = Sum.inl n2 := hsnd
          subst hv2
          exact ⟨k, hkv⟩
        · simp [hty] at heq
      · simp at heq
    · rintro ⟨hty, k, hkv⟩
      rw [allObjsOfType, pySet, List.mem_dedup, List.mem_filterMap]
      exact ⟨Sum.inl n, List.mem_map.mpr ⟨(k, Sum.inl n), hkv, rfl⟩, by simp [hty]⟩
  · simp [CalcSuite.getRegions, hex]
  · simp only [pySet, List.mem_dedup]
    exact hsame x

/-- Witness for claim C6: at the fixture library (no `regions` sub-namespace,
two region attributes) and at explicit lists that are permutations of each
other with duplicates. -/
theorem get_regions_resolution_witness :
    CalcSuite.getRegions wSpecs
        = Except.ok (Val.list [Val.nodeSet (allObjsOfType PyType.region wLib)]) ∧
    (wReg1 ∈ allObjsOfType PyType.region wLib ↔
        wReg1.ty = PyType.region ∧ ∃ k, (k, Sum.inl wReg1) ∈ wLib.attrs) ∧
    CalcSuite.getRegions { wSpecs with regions := CollIn.explicit [wReg2, wReg1, wReg2] }
        = Except.ok (Val.list [Val.nodeSet (pySet [wReg2, wReg1, wReg2])]) ∧
    (∀ x, x ∈ pySet [wReg2, wReg1, wReg2] ↔ x ∈ pySet [wReg1, wReg2]) :=
  ⟨get_regions_resolution.2.1 wSpecs rfl (by decide),
   get_regions_resolution.2.2.1 PyType.region wLib wReg1,
   get_regions_resolution.2.2.2.1 { wSpecs with regions := CollIn.explicit [wReg2, wReg1, wReg2] }
     [wReg2, wReg1, wReg2] rfl,
   get_regions_resolution.2.2.2.2.2 [wReg2, wReg1, wReg2] [wReg1, wReg2]
     (by intro x; simp only [List.mem_cons, List.not_mem_nil, or_false]; tauto)⟩

/-!
Claims C4 and C7: the execution harness.
-/

/-- Both dispatch modes of `_exec_calcs` compute, per unit, the result and
log of `_compute_or_skip_on_error`, results aligned with input order. -/
theorem execCalcs_eq {α : Type} (calcs : List (Calc α)) (par : Bool) :
    execCalcs calcs par =
      (calcs.map fun u => (computeOrSkipOnError u).1,
       (calcs.map fun u => (computeOrSkipOnError u).2).flatten) := by
  have hseq : execCalcsSeq calcs =
      (calcs.map fun u => (computeOrSkipOnError u).1,
       (calcs.map fun u => (computeOrSkipOnError u).2).flatten) := by
    induction calcs with
    | nil => rfl
    | cons c rest ih => simp [execCalcsSeq, ih]
  cases par with
  | false => simpa [execCalcs] using hseq
  | true =>
    show poolMap calcs = _
    simp only [poolMap, List.map_map]
    rfl

/-- Claim C4: in either dispatch mode, a unit whose `compute` raises is
recorded as `None` in its slot while a warning containing its identity and
the traceback is logged, every other unit still returns its real result in
its own slot, the result list stays aligned with the input list, and (by the
total type of `execCalcs`) the failure is never re-raised to the caller. -/
theorem exec_calcs_fault_isolation {α : Type} (calcs : List (Calc α)) (par : Bool)
    (i : ℕ) (u : Calc α) (tb : String)
    (hu : calcs[i]? = some u) (herr : u.compute = Except.error tb) :
    (execCalcs calcs par).1.length = calcs.length ∧
    (execCalcs calcs par).1[i]? = some none ∧
    skipMsg u tb ∈ (execCalcs calcs par).2 ∧
    u.id.data <:+: (skipMsg u tb).data ∧
    tb.data <:+: (skipMsg u tb).data ∧
    (∀ (j : ℕ) (v : Calc α) (r : α), calcs[j]? = some v → v.compute = Except.ok r →
      (execCalcs calcs par).1[j]? = some (some r)) := by
  rw [execCalcs_eq]
  refine ⟨by simp, ?_, ?_, ?_, ?_, ?_⟩
  · rw [List.getElem?_map, hu]
    simp [computeOrSkipOnError, herr]
  · rw [List.mem_flatten]
    refine ⟨(computeOrSkipOnError u).2, List.mem_map.mpr ⟨u, List.getElem?_mem hu, rfl⟩, ?_⟩
    simp [computeOrSkipOnError, herr]
  · refine ⟨"Skipping aospy calculation `".data,
      ("` due to error with the following traceback: \n" ++ tb).data, ?_⟩
    simp [skipMsg, String.data_append, List.append_assoc]
  · refine ⟨("Skipping aospy calculation `" ++ u.id ++
      "` due to error with the following traceback: \n").data, [], ?_⟩
    simp [skipMsg, String.data_append, List.append_assoc]
  · intro j v r hv hok
    rw [List.getElem?_map, hv]
    simp [computeOrSkipOnError, hok]

/-- Witness for claim C4: a three-unit batch whose middle unit raises, in
both dispatch modes at once (the order-sensitive parts instantiated at the
sequential mode). -/
theorem exec_calcs_fault_isolation_witness :
    ((execCalcs [⟨"c0", Except.ok 10⟩, ⟨"c1", Except.error "boom"⟩,
        (⟨"c2", Except.ok 12⟩ : Calc Nat)] false).1.length = 3 ∧
      (execCalcs [⟨"c0", Except.ok 10⟩, ⟨"c1", Except.error "boom"⟩,
        (⟨"c2", Except.ok 12⟩ : Calc Nat)] false).1[1]? = some none ∧
      skipMsg (⟨"c1", Except.error "boom"⟩ : Calc Nat) "boom" ∈
        (execCalcs [⟨"c0", Except.ok 10⟩, ⟨"c1", Except.error "boom"⟩,
          (⟨"c2", Except.ok 12⟩ : Calc Nat)] false).2) ∧
    (execCalcs [⟨"c0", Except.ok 10⟩, ⟨"c1", Except.error "boom"⟩,
        (⟨"c2", Except.ok 12⟩ : Calc Nat)] false).1[2]? = some (some 12) := by
  have h := exec_calcs_fault_isolation
    [⟨"c0", Except.ok 10⟩, ⟨"c1", Except.error "boom"⟩, (⟨"c2", Except.ok 12⟩ : Calc Nat)]
    false 1 ⟨"c1", Except.error "boom"⟩ "boom" rfl rfl
  exact ⟨⟨h.1, h.2.1, h.2.2.1⟩, h.2.2.2.2.2 2 ⟨"c2", Except.ok 12⟩ 12 rfl rfl⟩

/-- Claim C7: over a unit sequence in which no `compute` raises, parallel and
sequential dispatch return identical result sequences (same values, same
order, and the same — empty — warning log). -/
theorem exec_calcs_parallel_sequential_agree {α : Type} (calcs : List (Calc α))
    (h : ∀ u ∈ calcs, ∃ r, u.compute = Except.ok r) :
    execCalcs calcs true = execCalcs calcs false := by
  clear h
  rw [execCalcs_eq, execCalcs_eq]

/-- Witness for claim C7 at a concrete two-unit batch with no failures. -/
theorem exec_calcs_parallel_sequential_agree_witness :
    execCalcs [⟨"c0", Except.ok 1⟩, (⟨"c1", Except.ok 2⟩ : Calc Nat)] true =
      execCalcs [⟨"c0", Except.ok 1⟩, (⟨"c1", Except.ok 2⟩ : Calc Nat)] false :=
  exec_calcs_parallel_sequential_agree
    [⟨"c0", Except.ok 1⟩, (⟨"c1", Except.ok 2⟩ : Calc Nat)]
    (by
      intro u hu
      rcases List.mem_cons.mp hu with h | h
      · exact ⟨1, by rw [h]⟩
      · rcases List.mem_cons.mp h with h2 | h2
        · exact ⟨2, by rw [h2]⟩
        · exact absurd h2 (List.not_mem_nil u))

/-!
Claims C5 and C10: the submission frontend.
-/

/-- Claim C5 counterexample: with `prompt_verify` set, the empty answer (just
pressing enter) is a non-affirmative answer, yet the call raises
`IndexError` (from `input_func(prompt).lower()[0]`), not the package's
cancellation condition `AospyException`. -/
theorem submit_empty_answer_not_cancellation :
    (submitMultCalcs wMk wSpecs (some [("prompt_verify", Val.bool true)]) "").outcome
        = Except.error PyErr.indexError ∧
      PyErr.indexError ≠ PyErr.aospyException :=
  ⟨rfl, by decide⟩

/-- Claim C5 (amended): with `prompt_verify` truthy, a non-empty answer whose
first lowered character is not `'y'` raises the cancellation condition
`AospyException` and no computation unit is constructed (hence none is
executed); the empty answer instead raises `IndexError`, still before any
unit is constructed. -/
theorem submit_declined_cancellation {α : Type} (mk : List (String × Val) → Calc α)
    (s : SuiteSpecs) (opts : List (String × Val)) (answer : String)
    (hpv : (dictPop "prompt_verify" opts (Val.bool false)).1.truthy = true) :
    ((pyLower answer).data[0]? = none →
        (submitMultCalcs mk s (some opts) answer).outcome = Except.error PyErr.indexError ∧
        (submitMultCalcs mk s (some opts) answer).constructedCalcs = []) ∧
    (∀ c : Char, (pyLower answer).data[0]? = some c → c ≠ 'y' →
        (submitMultCalcs mk s (some opts) answer).outcome = Except.error PyErr.aospyException ∧
        (submitMultCalcs mk s (some opts) answer).constructedCalcs = []) := by
  have hun : submitMultCalcs mk s (some opts) answer =
      (match userVerify answer with
       | Except.error e =>
         ⟨(dictPop "prompt_verify" opts (Val.bool false)).2, [], Except.error e⟩
       | Except.ok _ => submitProceed mk s (dictPop "prompt_verify" opts (Val.bool false)).2) := by
    simp only [submitMultCalcs]
    rw [if_pos hpv]
  constructor
  · intro h
    have hv : userVerify answer = Except.error PyErr.indexError := by
      simp [userVerify, h]
    rw [hun, hv]
    exact ⟨rfl, rfl⟩
  · intro c hc hne
    have hv : userVerify answer = Except.error PyErr.aospyException := by
      simp [userVerify, hc, hne]
    rw [hun, hv]
    exact ⟨rfl, rfl⟩

/-- Witness for claim C5 (amended): the answer `"n"` with `prompt_verify`
set raises `AospyException` with no unit constructed. -/
theorem submit_declined_cancellation_witness :
    (submitMultCalcs wMk wSpecs (some [("prompt_verify", Val.bool true)]) "n").outcome
        = Except.error PyErr.aospyException ∧
      (submitMultCalcs wMk wSpecs (some [("prompt_verify", Val.bool true)]) "n").constructedCalcs
        = [] :=
  (submit_declined_cancellation wMk wSpecs [("prompt_verify", Val.bool true)] "n"
    rfl).2 'n' rfl (by decide)

/-- Lookup of the popped key in the dict after `d.pop(k, dflt)` always
fails. -/
theorem dictLookup_filter_self (k : String) (d : List (String × Val)) :
    dictLookup k (d.filter fun kv => kv.1 ≠ k) = none := by
  induction d with
  | nil => rfl
  | cons kv rest ih =>
    by_cases h : kv.1 = k
    · simpa [List.filter_cons, h] using ih
    · simpa [List.filter_cons, h, dictLookup] using ih

/-- Lookup of any other key is unchanged by `d.pop(k0, dflt)`. -/
theorem dictLookup_filter_other {k k0 : String} (hne : k ≠ k0) (d : List (String × Val)) :
    dictLookup k (d.filter fun kv => kv.1 ≠ k0) = dictLookup k d := by
  induction d with
  | nil => rfl
  | cons kv rest ih =>
    rcases kv with ⟨k1, v1⟩
    simp only [ne_eq, decide_not] at ih
    by_cases h : k1 = k0
    · subst h
      have h2 : k1 ≠ k := Ne.symm hne
      simp [List.filter_cons, dictLookup, h2, ih]
    · by_cases h2 : k1 = k
      · subst h2
        simp [List.filter_cons, dictLookup, h, ih]
      · simp [List.filter_cons, dictLookup, h, h2, ih]

/-- On every control path of `submit_mult_calcs`, the final state of the
caller's `exec_options` dict is the state right after the `prompt_verify`
pop. -/
theorem submit_execOptionsFinal {α : Type} (mk : List (String × Val) → Calc α)
    (s : SuiteSpecs) (opts : List (String × Val)) (answer : String) :
    (submitMultCalcs mk s (some opts) answer).execOptionsFinal =
      (dictPop "prompt_verify" opts (Val.bool false)).2 := by
  simp only [submitMultCalcs]
  by_cases hpv : (dictPop "prompt_verify" opts (Val.bool false)).1.truthy = true
  · rw [if_pos hpv]
    cases h : userVerify answer with
    | error e => rfl
    | ok _ =>
      simp only [submitProceed]
      cases h2 : CalcSuite.combineCoreAuxSpecs s with
      | error e => rfl
      | ok specs => rfl
  · rw [if_neg hpv]
    simp only [submitProceed]
    cases h2 : CalcSuite.combineCoreAuxSpecs s with
    | error e => rfl
    | ok specs => rfl

/-- Claim C10: for every non-`None` `exec_options` dict, after the call
returns or raises the caller-visible dict no longer binds `prompt_verify`,
while lookups of every other key are unchanged by the entry point. -/
theorem submit_pops_prompt_verify {α : Type} (mk : List (String × Val) → Calc α)
    (s : SuiteSpecs) (opts : List (String × Val)) (answer : String) :
    dictLookup "prompt_verify"
        (submitMultCalcs mk s (some opts) answer).execOptionsFinal = none ∧
    ∀ k : String, k ≠ "prompt_verify" →
      dictLookup k (submitMultCalcs mk s (some opts) answer).execOptionsFinal
        = dictLookup k opts := by
  rw [submit_execOptionsFinal]
  simp only [dictPop]
  cases h : dictLookup "prompt_verify" opts with
  | none => exact ⟨h, fun k hk => rfl⟩
  | some v =>
    exact ⟨dictLookup_filter_self _ opts, fun k hk => dictLookup_filter_other hk opts⟩

/-- Witness for claim C10 at a concrete two-key options dict. -/
theorem submit_pops_prompt_verify_witness :
    dictLookup "prompt_verify"
        (submitMultCalcs wMk wSpecs
          (some [("prompt_verify", Val.bool true), ("parallelize", Val.bool false)])
          "y").execOptionsFinal = none ∧
    dictLookup "parallelize"
        (submitMultCalcs wMk wSpecs
          (some [("prompt_verify", Val.bool true), ("parallelize", Val.bool false)])
          "y").execOptionsFinal
      = dictLookup "parallelize"
          [("prompt_verify", Val.bool true), ("parallelize", Val.bool false)] :=
  ⟨(submit_pops_prompt_verify wMk wSpecs
      [("prompt_verify", Val.bool true), ("parallelize", Val.bool false)] "y").1,
   (submit_pops_prompt_verify wMk wSpecs
      [("prompt_verify", Val.bool true), ("parallelize", Val.bool false)] "y").2
     "parallelize" (by decide)⟩

/-!
Claim C1: cardinality and shape of the combined suite expansion.
-/

/-- The renamed core field names, in the dict order `_permute_core_specs`
inserts them. -/
def coreNames : List String := ["proj", "model", "run"]

/-- The renamed auxiliary field names, in the dict order produced by the
renaming loop of `_permute_aux_specs`. -/
def calcAuxNames : List String :=
  ["var", "region", "date_range", "intvl_in", "dtype_in_time", "time_offset",
   "dtype_in_vert", "intvl_out", "dtype_out_time", "dtype_out_vert"]

/-- All thirteen renamed field names of one resolved parameter mapping. -/
def calcNamesAll : List String := coreNames ++ calcAuxNames

theorem sum_map_const_nat {α : Type} (l : List α) (n : ℕ) :
    (l.map fun _ => n).sum = l.length * n := by
  induction l with
  | nil => simp
  | cons x xs ih => simp [ih, Nat.succ_mul, Nat.add_comm]

/-- The Cartesian product has as many elements as the product of the factor
sizes. -/
theorem listProd_length {α : Type} (ls : List (List α)) :
    (listProd ls).length = (ls.map List.length).prod := by
  induction ls with
  | nil => rfl
  | cons xs rest ih =>
    rw [listProd, List.length_flatten, List.map_map]
    have h : (List.length ∘ fun x => (listProd rest).map fun p => x :: p)
        = fun _ => (listProd rest).length := by
      funext x
      simp
    rw [h, sum_map_const_nat, ih, List.map_cons, List.prod_cons]

/-- Every element of the Cartesian product picks one value per factor. -/
theorem listProd_mem_length {α : Type} (ls : List (List α)) (p : List α)
    (hp : p ∈ listProd ls) : p.length = ls.length := by
  induction ls generalizing p with
  | nil =>
    simp only [listProd, List.mem_singleton] at hp
    subst hp
    rfl
  | cons xs rest ih =>
    rw [listProd, List.mem_flatten] at hp
    rcases hp with ⟨l2, hl2, hpl⟩
    rcases List.mem_map.mp hl2 with ⟨x, _, rfl⟩
    rcases List.mem_map.mp hpl with ⟨q, hq, rfl⟩
    simp [ih q hq]

theorem exceptMapM_ok_length {α β : Type} (f : α → Except PyErr β) (l : List α)
    (l2 : List β) (h : exceptMapM f l = Except.ok l2) : l2.length = l.length := by
  induction l generalizing l2 with
  | nil =>
    simp only [exceptMapM, Except.ok.injEq] at h
    subst h
    rfl
  | cons x xs ih =>
    cases hf : f x with
    | error e => simp [exceptMapM, hf] at h
    | ok y =>
      cases hm : exceptMapM f xs with
      | error e => simp [exceptMapM, hf, hm] at h
      | ok ys =>
        simp only [exceptMapM, hf, hm, Except.ok.injEq] at h
        subst h
        simp [ih ys hm]

/-- Accumulator invariant for `exceptFoldlM`. -/
theorem exceptFoldlM_inv {α β : Type} (f : β → α → Except PyErr β) (P : β → Prop)
    (hstep : ∀ acc x out, f acc x = Except.ok out → P acc → P out) :
    ∀ (l : List α) (init out : β),
      exceptFoldlM f init l = Except.ok out → P init → P out := by
  intro l
  induction l with
  | nil =>
    intro init out h hP
    rw [exceptFoldlM] at h
    injection h with h2
    exact h2 ▸ hP
  | cons x xs ih =>
    intro init out h hP
    rw [exceptFoldlM] at h
    cases hf : f init x with
    | error e => simp [hf] at h
    | ok b2 =>
      simp only [hf] at h
      exact ih b2 out h (hstep init x b2 hf hP)

/-- Every dict emitted by core expansion binds exactly the keys
`proj`, `model`, `run`, in that order. -/
theorem permuteCoreSpecs_keys (s : SuiteSpecs) (core : List (List (String × Val)))
    (h : CalcSuite.permuteCoreSpecs s = Except.ok core) :
    ∀ d ∈ core, d.map Prod.fst = coreNames := by
  rw [CalcSuite.permuteCoreSpecs] at h
  cases h1 : getRequestedSpec s.projects s.library "projects" with
  | error e => simp [h1] at h
  | ok pv =>
    cases h2 : asIterable pv with
    | error e => simp [h1, h2] at h
    | ok projects =>
      simp only [h1, h2] at h
      refine exceptFoldlM_inv _ (fun trees => ∀ d ∈ trees, d.map Prod.fst = coreNames)
        ?_ projects [] core h (by simp)
      intro acc project out hstep hacc
      cases h3 : getRequestedSpec s.models project "models" with
      | error e => simp [h3] at hstep
      | ok mv =>
        cases h4 : asIterable mv with
        | error e => simp [h3, h4] at hstep
        | ok models =>
          simp only [h3, h4] at hstep
          refine exceptFoldlM_inv _ (fun trees => ∀ d ∈ trees, d.map Prod.fst = coreNames)
            ?_ models acc out hstep hacc
          intro acc2 model out2 hstep2 hacc2
          cases h5 : getRequestedSpec s.runs model "runs" with
          | error e => simp [h5] at hstep2
          | ok rv =>
            cases h6 : asIterable rv with
            | error e => simp [h5, h6] at hstep2
            | ok runs =>
              simp only [h5, h6, Except.ok.injEq] at hstep2
              subst hstep2
              intro d hd
              rcases List.mem_append.mp hd with h7 | h7
              · exact hacc2 d h7
              · rcases List.mem_map.mp h7 with ⟨run, _, rfl⟩
                rfl

/-- Structure of a successful `_get_aux_specs`: both resolvers succeeded and
the dict is the ten auxiliary fields in declared order. -/
theorem getAuxSpecs_ok_form (s : SuiteSpecs) (specs : List (String × Val))
    (h : CalcSuite.getAuxSpecs s = Except.ok specs) :
    ∃ rv vv, CalcSuite.getRegions s = Except.ok rv ∧
      CalcSuite.getVariables s = Except.ok vv ∧
      specs = [("variables", vv), ("regions", rv),
        ("date_ranges", CalcSuite.getDateRanges s),
        ("input_time_intervals", s.input_time_intervals),
        ("input_time_datatypes", s.input_time_datatypes),
        ("input_time_offsets", s.input_time_offsets),
        ("input_vertical_datatypes", s.input_vertical_datatypes),
        ("output_time_intervals", s.output_time_intervals),
        ("output_time_regional_reductions", CalcSuite.getTimeRegReducts s),
        ("output_vertical_reductions", s.output_vertical_reductions)] := by
  rw [CalcSuite.getAuxSpecs] at h
  cases h1 : CalcSuite.getRegions s with
  | error e => simp [h1] at h
  | ok rv =>
    cases h2 : CalcSuite.getVariables s with
    | error e => simp [h1, h2] at h
    | ok vv =>
      simp only [h1, h2, Except.ok.injEq] at h
      exact ⟨rv, vv, rfl, rfl, h.symm⟩

/-- The renaming loop on the ten auxiliary fields in declared order: each
suite name is popped and its calc name appended, ending in the static
`_NAMES_SUITE_TO_CALC` order. -/
theorem renameAuxSpecs_literal (vv rv dr iti itd ito ivd oti otrr ovr : Val) :
    renameAuxSpecs
      [("variables", vv), ("regions", rv), ("date_ranges", dr),
       ("input_time_intervals", iti), ("input_time_datatypes", itd),
       ("input_time_offsets", ito), ("input_vertical_datatypes", ivd),
       ("output_time_intervals", oti), ("output_time_regional_reductions", otrr),
       ("output_vertical_reductions", ovr)]
    = Except.ok
      [("var", vv), ("region", rv), ("date_range", dr), ("intvl_in", iti),
       ("dtype_in_time", itd), ("time_offset", ito), ("dtype_in_vert", ivd),
       ("intvl_out", oti), ("dtype_out_time", otrr), ("dtype_out_vert", ovr)] := by
  simp [renameAuxSpecs, namesSuiteToCalcAux, exceptFoldlM, dictLookup]

/-- A successful `_permute_aux_specs` is the zipped Cartesian product of the
iterated renamed auxiliary values, and the renamed keys are exactly the ten
auxiliary calc names. -/
theorem permuteAuxSpecs_ok (s : SuiteSpecs) (specs rs : List (String × Val))
    (ls : List (List Val))
    (hspecs : CalcSuite.getAuxSpecs s = Except.ok specs)
    (hrs : renameAuxSpecs specs = Except.ok rs)
    (hls : exceptMapM (fun kv => pyIter kv.2) rs = Except.ok ls) :
    CalcSuite.permuteAuxSpecs s
        = Except.ok ((listProd ls).map fun p => (rs.map Prod.fst).zip p) ∧
      rs.map Prod.fst = calcAuxNames := by
  constructor
  · rw [CalcSuite.permuteAuxSpecs]
    simp only [hspecs, hrs]
    rw [permutedDictsOfSpecs]
    simp only [hls]
  · rcases getAuxSpecs_ok_form s specs hspecs with ⟨rv, vv, _, _, h3⟩
    subst h3
    rw [renameAuxSpecs_literal] at hrs
    injection hrs with h4
    rw [← h4]
    rfl

theorem dictLookup_eq_none_iff (k : String) (d : List (String × Val)) :
    dictLookup k d = none ↔ k ∉ d.map Prod.fst := by
  induction d with
  | nil => simp [dictLookup]
  | cons kv rest ih =>
    by_cases h : kv.1 = k
    · simp [dictLookup, h]
    · simp [dictLookup, h, ih, Ne.symm h]

/-- `dict.update` on key-disjoint dicts is concatenation. -/
theorem dictUpdate_disjoint (d1 d2 : List (String × Val))
    (h12 : ∀ kv ∈ d1, dictLookup kv.1 d2 = none)
    (h21 : ∀ kv ∈ d2, dictLookup kv.1 d1 = none) :
    dictUpdate d1 d2 = d1 ++ d2 := by
  rw [dictUpdate]
  congr 1
  · have h : ∀ kv ∈ d1,
        (match dictLookup kv.1 d2 with
         | some v => (kv.1, v)
         | none => kv) = id kv := by
      intro kv hkv
      rw [h12 kv hkv]
      rfl
    rw [List.map_congr_left h, List.map_id]
  · apply List.filter_eq_self.mpr
    intro kv hkv
    simp [h21 kv hkv]

theorem dictUpdate_nil_left (d : List (String × Val)) : dictUpdate [] d = d := by
  rw [dictUpdate]
  have h : ∀ kv ∈ d, ((dictLookup kv.1 ([] : List (String × Val))).isNone) = true :=
    fun kv _ => rfl
  rw [List.filter_eq_self.mpr h]
  rfl

/-- Merging one core dict with one auxiliary dict yields a mapping binding
exactly the thirteen renamed field names, each once. -/
theorem merged_keys (c a : List (String × Val))
    (hc : c.map Prod.fst = coreNames) (ha : a.map Prod.fst = calcAuxNames) :
    (mergeDicts [c, a]).map Prod.fst = calcNamesAll := by
  have hdisj1 : ∀ x ∈ coreNames, x ∉ calcAuxNames := by decide
  have hdisj2 : ∀ x ∈ calcAuxNames, x ∉ coreNames := by decide
  have hm : mergeDicts [c, a] = dictUpdate (dictUpdate [] c) a := rfl
  rw [hm, dictUpdate_nil_left]
  rw [dictUpdate_disjoint c a ?h12 ?h21]
  · rw [List.map_append, hc, ha]
    rfl
  case h12 =>
    intro kv hkv
    rw [dictLookup_eq_none_iff, ha]
    exact hdisj1 kv.1 (hc ▸ List.mem_map_of_mem Prod.fst hkv)
  case h21 =>
    intro kv hkv
    rw [dictLookup_eq_none_iff, hc]
    exact hdisj2 kv.1 (ha ▸ List.mem_map_of_mem Prod.fst hkv)

/-- The accumulation loop of `_combine_core_aux_specs`: one merged dict per
(core dict, auxiliary dict) pair, auxiliary-minor, appended to the
accumulator.  `f` is the loop body, which recomputes the auxiliary
permutation on every outer iteration to the same value. -/
theorem combine_fold (f : List (List (String × Val)) → List (String × Val) →
      Except PyErr (List (List (String × Val))))
    (auxDicts : List (List (String × Val)))
    (hstep : ∀ acc c, f acc c
      = Except.ok (acc ++ auxDicts.map fun auxDict => mergeDicts [c, auxDict])) :
    ∀ (core init : List (List (String × Val))),
      ∃ out, exceptFoldlM f init core = Except.ok out ∧
        out.length = init.length + core.length * auxDicts.length ∧
        ∀ d ∈ out, d ∈ init ∨ ∃ c ∈ core, ∃ a ∈ auxDicts, d = mergeDicts [c, a] := by
  intro core
  induction core with
  | nil =>
    intro init
    exact ⟨init, rfl, by simp, fun d hd => Or.inl hd⟩
  | cons c rest ih =>
    intro init
    rcases ih (init ++ auxDicts.map fun a => mergeDicts [c, a]) with ⟨out, hout, hlen, hmem⟩
    refine ⟨out, ?_, ?_, ?_⟩
    · rw [exceptFoldlM]
      simp only [hstep]
      exact hout
    · rw [hlen]
      simp only [List.length_append, List.length_map, List.length_cons]
      ring
    · intro d hd
      rcases hmem d hd with hin | ⟨c2, hc2, a, ha2, hda⟩
      · rcases List.mem_append.mp hin with h1 | h1
        · exact Or.inl h1
        · rcases List.mem_map.mp h1 with ⟨a, ha, rfl⟩
          exact Or.inr ⟨c, List.mem_cons_self c rest, a, ha, rfl⟩
      · exact Or.inr ⟨c2, List.mem_cons_of_mem c hc2, a, ha2, hda⟩

/-- Claim C1: when core expansion yields `m` dicts and the ten resolved
auxiliary fields iterate to value lists of sizes `ns = [n1, ..., n10]`, the
combined output has exactly `m * (n1 * ... * n10)` entries, and every entry
is a mapping binding each of the thirteen renamed fields exactly once (its
key list is exactly the duplicate-free `calcNamesAll`). -/
theorem combine_core_aux_specs_count (s : SuiteSpecs)
    (core : List (List (String × Val))) (m : ℕ)
    (specs rs : List (String × Val)) (ls : List (List Val)) (ns : List ℕ)
    (hcore : CalcSuite.permuteCoreSpecs s = Except.ok core)
    (hm : core.length = m)
    (hspecs : CalcSuite.getAuxSpecs s = Except.ok specs)
    (hrs : renameAuxSpecs specs = Except.ok rs)
    (hls : exceptMapM (fun kv => pyIter kv.2) rs = Except.ok ls)
    (hns : ls.map List.length = ns) :
    ∃ out, CalcSuite.combineCoreAuxSpecs s = Except.ok out ∧
      out.length = m * ns.prod ∧
      (∀ d ∈ out, d.map Prod.fst = calcNamesAll) ∧
      calcNamesAll.Nodup := by
  rcases permuteAuxSpecs_ok s specs rs ls hspecs hrs hls with ⟨haux, hkeys⟩
  have hauxlen : ((listProd ls).map fun p => (rs.map Prod.fst).zip p).length = ns.prod := by
    rw [List.length_map, listProd_length, hns]
  have hauxkeys : ∀ a ∈ (listProd ls).map fun p => (rs.map Prod.fst).zip p,
      a.map Prod.fst = calcAuxNames := by
    intro a ha
    rcases List.mem_map.mp ha with ⟨p, hp, rfl⟩
    have hplen : p.length = ls.length := listProd_mem_length ls p hp
    have hlslen : ls.length = rs.length := exceptMapM_ok_length _ rs ls hls
    rw [List.map_fst_zip]
    · exact hkeys
    · rw [List.length_map, hplen, hlslen]
  have hcorekeys := permuteCoreSpecs_keys s core hcore
  rcases combine_fold
      (fun allSpecs coreDict =>
        match CalcSuite.permuteAuxSpecs s with
        | Except.error e => Except.error e
        | Except.ok auxDicts =>
          Except.ok (allSpecs ++ auxDicts.map fun auxDict => mergeDicts [coreDict, auxDict]))
      ((listProd ls).map fun p => (rs.map Prod.fst).zip p)
      (fun acc c => by simp only [haux]) core []
    with ⟨out, hout, hlen, hmem⟩
  refine ⟨out, ?_, ?_, ?_, by decide⟩
  · rw [CalcSuite.combineCoreAuxSpecs]
    simp only [hcore]
    exact hout
  · rw [hlen, hauxlen, hm]
    simp
  · intro d hd
    rcases hmem d hd with hin | ⟨c, hc, a, ha, rfl⟩
    · exact absurd hin (List.not_mem_nil d)
    · exact merged_keys c a (hcorekeys c hc) (hauxkeys a ha)

/-- Witness for claim C1 at the fixture: 3 core triples, ten auxiliary axes
of one value each, giving 3 × 1 combined mappings each binding the thirteen
renamed fields once. -/
theorem combine_core_aux_specs_count_witness :
    ∃ out, CalcSuite.combineCoreAuxSpecs wSpecs = Except.ok out ∧
      out.length = 3 * ([1, 1, 1, 1, 1, 1, 1, 1, 1, 1] : List ℕ).prod ∧
      (∀ d ∈ out, d.map Prod.fst = calcNamesAll) ∧
      calcNamesAll.Nodup :=
  combine_core_aux_specs_count wSpecs
    [coreDict wA wM1 wR1, coreDict wA wM2 wR2, coreDict wA wM2 wR3] 3
    [("variables", Val.nodeSet [wVar1]),
     ("regions", Val.list [Val.nodeSet [wReg1, wReg2]]),
     ("date_ranges", Val.list [Val.str "default"]),
     ("input_time_intervals", Val.list [Val.str "monthly"]),
     ("input_time_datatypes", Val.list [Val.str "ts"]),
     ("input_time_offsets", Val.list [Val.bool false]),
     ("input_vertical_datatypes", Val.list [Val.bool false]),
     ("output_time_intervals", Val.list [Val.str "ann"]),
     ("output_time_regional_reductions",
       Val.list [Val.list [Val.str "av", Val.str "reg.av"]]),
     ("output_vertical_reductions", Val.list [Val.bool false])]
    [("var", Val.nodeSet [wVar1]),
     ("region", Val.list [Val.nodeSet [wReg1, wReg2]]),
     ("date_range", Val.list [Val.str "default"]),
     ("intvl_in", Val.list [Val.str "monthly"]),
     ("dtype_in_time", Val.list [Val.str "ts"]),
     ("time_offset", Val.list [Val.bool false]),
     ("dtype_in_vert", Val.list [Val.bool false]),
     ("intvl_out", Val.list [Val.str "ann"]),
     ("dtype_out_time", Val.list [Val.list [Val.str "av", Val.str "reg.av"]]),
     ("dtype_out_vert", Val.list [Val.bool false])]
    [[Val.node wVar1],
     [Val.nodeSet [wReg1, wReg2]],
     [Val.str "default"],
     [Val.str "monthly"],
     [Val.str "ts"],
     [Val.bool false],
     [Val.bool false],
     [Val.str "ann"],
     [Val.list [Val.str "av", Val.str "reg.av"]],
     [Val.bool false]]
    [1, 1, 1, 1, 1, 1, 1, 1, 1, 1]
    rfl rfl rfl
    (renameAuxSpecs_literal (Val.nodeSet [wVar1])
      (Val.list [Val.nodeSet [wReg1, wReg2]]) (Val.list [Val.str "default"])
      (Val.list [Val.str "monthly"]) (Val.list [Val.str "ts"])
      (Val.list [Val.bool false]) (Val.list [Val.bool false])
      (Val.list [Val.str "ann"])
      (Val.list [Val.list [Val.str "av", Val.str "reg.av"]])
      (Val.list [Val.bool false]))
    rfl rfl
